import Mathlib

/-!
Verification of the JPDBImport add-on core (`src/__init_.py`): the batched
remote-lookup and field-mapping pipeline.  Network calls and the Anki
collection are abstracted as oracles passed in as arguments; the control flow
of `get_deck_cards`, `lookup_vocabulary` and `import_cards` is translated
statement by statement from the source.
-/

namespace JPDBImport

/-- One record of the `vocabulary_info` array returned by the
`lookup-vocabulary` endpoint: `none` models a JSON `null` entry,
`some [spellings, readings, meanings]` models the positional triple of
arrays.  Meaning elements are modelled by the string `str(m)` produces
for them. -/
abbrev VocabInfo := Option (List (List String))

/-- One entry of the `vocabulary` array of `deck/list-vocabulary`: a
(possibly short or empty) list of integer ids. -/
abbrev VocabIds := List Int

/-- The remote oracle behind `JPDBClient.lookup_vocabulary`, indexed by how
many lookup calls were issued before it in this run.  `Except.error e` models
a raised exception with message `e`; `Except.ok none` models a 2xx response
without a `vocabulary_info` key; `Except.ok (some l)` models a response whose
`vocabulary_info` array is `l`. -/
abbrev RemoteOracle := Nat → List VocabIds → Except String (Option (List VocabInfo))

/-- The Anki write oracle: the behaviour of `mw.col.addNote`, indexed by how
many notes this run has added so far.  `Except.error` models a raised
exception. -/
abbrev WriteOracle := Nat → Except String Unit

/-- `JPDBClient.lookup_vocabulary` (lines 86-94): one batched lookup call;
an absent `vocabulary_info` key yields `[]`, not an error. -/
def lookup_vocabulary (remote : RemoteOracle) (k : Nat) (vocab_list : List VocabIds) :
    Except String (List VocabInfo) :=
  match remote k vocab_list with
  | Except.error e => Except.error e
  | Except.ok none => Except.ok []
  | Except.ok (some info) => Except.ok info

/-- Fuel-indexed helper for `chunksOf`; the fuel is an upper bound on the
number of chunks and is instantiated with the list length. -/
def chunksOfAux (bs : Nat) : Nat → List α → List (List α)
  | 0, _ => []
  | _ + 1, [] => []
  | fuel + 1, a :: l => (a :: l).take bs :: chunksOfAux bs fuel ((a :: l).drop bs)

/-- The successive slices `vocab_list[i:i+batch_size]` produced by the loop
`for i in range(0, len(vocab_list), batch_size)` in `get_deck_cards`
(line 105), for `batch_size ≥ 1`.  Python `range` raises for step 0, which no
caller uses. -/
def chunksOf (bs : Nat) (l : List α) : List (List α) :=
  chunksOfAux bs l.length l

/-- Normalisation of one entry of the `vocabulary` array inside the batching
loop of `get_deck_cards` (lines 110-116): empty entries are dropped, `[v]`
becomes `[v, v]`, and `[v, s, …]` becomes `[v, s]` with the tail discarded. -/
def normalizeEntry : VocabIds → Option VocabIds
  | [] => none
  | [v] => some [v, v]
  | v :: s :: _ => some [v, s]

/-- The `valid_batch` list accumulated for one chunk in `get_deck_cards`
(lines 109-116). -/
def validBatch (batch : List VocabIds) : List VocabIds :=
  batch.filterMap normalizeEntry

/-- The batching loop of `get_deck_cards` (lines 104-121) over the list of
chunks, threading the count `k` of lookup calls already issued.  Returns the
accumulated `cards` (or the first raised error) together with the list of
`lookup-vocabulary` request payloads actually issued, in order. -/
def runChunks (remote : RemoteOracle) : Nat → List (List VocabIds) →
    Except String (List VocabInfo) × List (List VocabIds)
  | _, [] => (Except.ok [], [])
  | k, batch :: rest =>
    if (validBatch batch).isEmpty then
      runChunks remote k rest
    else
      match lookup_vocabulary remote k (validBatch batch) with
      | Except.error e => (Except.error e, [validBatch batch])
      | Except.ok infos =>
        match runChunks remote (k + 1) rest with
        | (Except.error e, calls) => (Except.error e, validBatch batch :: calls)
        | (Except.ok more, calls) => (Except.ok (infos ++ more), validBatch batch :: calls)

/-- `JPDBClient.get_deck_cards` (lines 96-122): fetch the vocabulary-id list
of the deck (its outcome is passed in as `vocab`; `Except.error` models a
raised transport or HTTP error), truncate to the first `limit` entries, then
process chunks of `batch_size` sequentially.  The second component is the
list of `lookup-vocabulary` requests issued. -/
def get_deck_cards (vocab : Except String (List VocabIds)) (remote : RemoteOracle)
    (limit : Nat) (batch_size : Nat) :
    Except String (List VocabInfo) × List (List VocabIds) :=
  match vocab with
  | Except.error e => (Except.error e, [])
  | Except.ok vocab_list => runChunks remote 0 (chunksOf batch_size (vocab_list.take limit))

/-- Python `str.strip()` as used on the Anki deck name in `import_cards`
(line 241): drop leading and trailing whitespace characters.  (Python strips
a slightly larger set of Unicode space characters; the difference is
immaterial here, only emptiness after stripping is ever tested.) -/
def pyStrip (s : String) : String :=
  String.mk (((s.data.dropWhile Char.isWhitespace).reverse.dropWhile
    Char.isWhitespace).reverse)

/-- Outcome of the per-record mapping stage of `import_cards`. -/
inductive MapResult where
  | skip : MapResult
  | fields : List String → MapResult
  | err : String → MapResult
  deriving DecidableEq, Repr

/-- The per-record body of the import loop of `import_cards` (lines 273-310),
up to but not including the `addNote` call: from one `vocabulary_info` record
and the field count of the target note type, produce a skip, the full list of
note fields assigned, or a raised `IndexError` (with the Python message).
Fields of a fresh Anki note start as empty strings, so untouched fields are
`""`. -/
def mapFields (card_data : VocabInfo) (field_count : Nat) : MapResult :=
  match card_data with
  | none => MapResult.skip
  | some [] => MapResult.skip
  | some [_] => MapResult.err "list index out of range"
  | some [_, _] => MapResult.err "list index out of range"
  | some (spelling_arr :: reading_arr :: meanings_arr :: _) =>
    if spelling_arr.isEmpty then MapResult.skip
    else
      let spelling := spelling_arr.headD ""
      let reading := reading_arr.headD ""
      let meaning_text := String.intercalate ", " meanings_arr
      if 2 ≤ field_count then
        let front :=
          if reading ≠ "" ∧ reading ≠ spelling then
            spelling ++ " (" ++ reading ++ ")"
          else spelling
        MapResult.fields (front :: meaning_text :: List.replicate (field_count - 2) "")
      else if field_count = 1 then
        MapResult.fields [spelling]
      else
        MapResult.err "list assignment index out of range"

/-- The note-writing loop of `import_cards` (lines 273-314): iterate the
resolved records once, in order, threading the `imported` and `skipped`
counters and the list of note fields committed to the collection.  The first
component is the loop outcome; `Except.error` models an exception escaping
the loop body (which the source never catches per record). -/
def import_loop (field_count : Nat) (write : WriteOracle) :
    List VocabInfo → Nat → Nat → List (List String) →
    Except String Unit × Nat × Nat × List (List String)
  | [], imported, skipped, notes => (Except.ok (), imported, skipped, notes)
  | card_data :: rest, imported, skipped, notes =>
    match mapFields card_data field_count with
    | MapResult.skip => import_loop field_count write rest imported (skipped + 1) notes
    | MapResult.err e => (Except.error e, imported, skipped, notes)
    | MapResult.fields fs =>
      match write notes.length with
      | Except.error e => (Except.error e, imported, skipped, notes)
      | Except.ok _ => import_loop field_count write rest (imported + 1) skipped (notes ++ [fs])

/-- Observable outcome of one `import_cards` invocation: the status lines
appended to the status area, the warning and info dialogs shown, whether the
`deck/list-vocabulary` network call was issued, the `lookup-vocabulary`
requests issued, whether `mw.col.decks.id(deck_name)` ran (the get-or-create
of the target Anki deck), and the fields of the notes added. -/
structure RunResult where
  log : List String
  warnings : List String
  infos : List String
  listCalled : Bool
  lookupCalls : List (List VocabIds)
  deckCreated : Bool
  notes : List (List String)
  deriving DecidableEq, Repr

/-- `JPDBImportDialog.import_cards` (lines 236-327).  `combo_count` is the
number of entries in the JPDB deck combo box, `deck_name_input` the raw Anki
deck name text, `note_type` the result of `mw.col.models.by_name` as
`some field_count` or `none`; `vocab`, `remote` and `write` are the oracles
for the two network endpoints and for `addNote`.  Config persistence and the
`print` call are outside the modelled state. -/
def import_cards (combo_count : Nat) (deck_name_input : String) (note_type_name : String)
    (note_type : Option Nat) (vocab : Except String (List VocabIds))
    (remote : RemoteOracle) (write : WriteOracle) : RunResult :=
  if combo_count = 0 then
    ⟨[], ["Please load JPDB decks first."], [], false, [], false, []⟩
  else if pyStrip deck_name_input = "" then
    ⟨[], ["Please enter an Anki deck name."], [], false, [], false, []⟩
  else
    match get_deck_cards vocab remote 1000 100 with
    | (Except.error e, calls) =>
      ⟨["\nStarting import...", "Fetching cards from JPDB...",
          "\nError during import: " ++ e],
        ["Import failed: " ++ e], [], true, calls, false, []⟩
    | (Except.ok cards, calls) =>
      match note_type with
      | none =>
        ⟨["\nStarting import...", "Fetching cards from JPDB...",
            "Retrieved " ++ toString cards.length ++ " cards."],
          ["Note type \x27" ++ note_type_name ++ "\x27 not found."], [],
          true, calls, true, []⟩
      | some field_count =>
        match import_loop field_count write cards 0 0 [] with
        | (Except.error e, _, _, notes) =>
          ⟨["\nStarting import...", "Fetching cards from JPDB...",
              "Retrieved " ++ toString cards.length ++ " cards.",
              "\nError during import: " ++ e],
            ["Import failed: " ++ e], [], true, calls, true, notes⟩
        | (Except.ok _, imported, skipped, notes) =>
          ⟨["\nStarting import...", "Fetching cards from JPDB...",
              "Retrieved " ++ toString cards.length ++ " cards.",
              "\nImport complete!",
              "Imported: " ++ toString imported ++ " cards",
              "Skipped: " ++ toString skipped ++ " cards"],
            [], ["Successfully imported " ++ toString imported ++ " cards to \x27" ++
              pyStrip deck_name_input ++ "\x27!"],
            true, calls, true, notes⟩

/-! Concrete inputs used to instantiate the theorems below. -/

/-- A deck listing of 250 well-formed id pairs. -/
def l250 : List VocabIds := (List.range 250).map fun n => [(n : Int), (n : Int)]

/-- A remote oracle that answers every lookup call successfully (with an
empty `vocabulary_info` array). -/
def remoteOK : RemoteOracle := fun _ _ => Except.ok (some [])

/-- A remote oracle whose second lookup call (index 1) raises an HTTP
error, as `JPDBClient._make_request` does on a non-2xx status. -/
def remoteFail2 : RemoteOracle := fun k _ =>
  if k = 1 then Except.error "HTTP 500: boom" else Except.ok (some [])

/-- A write oracle for which `addNote` always succeeds. -/
def writeOK : WriteOracle := fun _ => Except.ok ()

/-- A remote oracle whose every lookup call raises an HTTP error. -/
def remoteErr : RemoteOracle := fun _ _ => Except.error "HTTP 500: boom"

/-- Three resolved records: one importable, one `null`, and one short triple
(a single sub-array where three are expected). -/
def cexCards : List VocabInfo := [some [["あ"], [], []], none, some [["x"]]]

/-- A remote oracle answering every lookup call with `cexCards`. -/
def remoteCex : RemoteOracle := fun _ _ => Except.ok (some cexCards)

/-! Helper lemmas about chunking. -/

/-- The fuel of `chunksOfAux` is irrelevant as long as it bounds the list
length. -/
theorem chunksOfAux_congr {α : Type} (bs : Nat) (hbs : 0 < bs) :
    ∀ f₁ f₂ (l : List α), l.length ≤ f₁ → l.length ≤ f₂ →
      chunksOfAux bs f₁ l = chunksOfAux bs f₂ l := by
  intro f₁
  induction f₁ with
  | zero =>
    intro f₂ l h₁ h₂
    have hl : l = [] := List.eq_nil_of_length_eq_zero (Nat.le_zero.mp h₁)
    subst hl
    cases f₂ <;> rfl
  | succ f ih =>
    intro f₂ l h₁ h₂
    cases l with
    | nil => cases f₂ <;> rfl
    | cons a t =>
      cases f₂ with
      | zero => simp at h₂
      | succ f' =>
        simp only [List.length_cons] at h₁ h₂
        have hlen : ((a :: t).drop bs).length = t.length + 1 - bs := by
          simp [List.length_drop]
        simp only [chunksOfAux]
        rw [ih f' ((a :: t).drop bs) (by rw [hlen]; omega) (by rw [hlen]; omega)]

/-- Unfolding equation for `chunksOf` on a nonempty list. -/
theorem chunksOf_eq {α : Type} (bs : Nat) (hbs : 0 < bs) (l : List α) (hl : l ≠ []) :
    chunksOf bs l = l.take bs :: chunksOf bs (l.drop bs) := by
  cases l with
  | nil => exact absurd rfl hl
  | cons a t =>
    show chunksOfAux bs (a :: t).length (a :: t) = _
    simp only [List.length_cons, chunksOfAux]
    refine congrArg _ ?_
    refine chunksOfAux_congr bs hbs t.length ((a :: t).drop bs).length ((a :: t).drop bs)
      ?_ (le_refl _)
    simp [List.length_drop]
    omega

/-- The chunks concatenate back to the original list:
the partition covers every element exactly once, in order. -/
theorem chunksOf_flatten {α : Type} (bs : Nat) (hbs : 0 < bs) (l : List α) :
    (chunksOf bs l).flatten = l := by
  cases l with
  | nil => rfl
  | cons a t =>
    rw [chunksOf_eq bs hbs _ (by simp), List.flatten_cons,
      chunksOf_flatten bs hbs ((a :: t).drop bs)]
    exact List.take_append_drop bs (a :: t)
termination_by l.length
decreasing_by simp [List.length_drop]; omega

/-- Every chunk is nonempty and no longer than the batch size. -/
theorem mem_chunksOf {α : Type} (bs : Nat) (hbs : 0 < bs) :
    ∀ (l c : List α), c ∈ chunksOf bs l → c.length ≤ bs ∧ c ≠ []
  | [], c, hc => by simp [chunksOf, chunksOfAux] at hc
  | a :: t, c, hc => by
    rw [chunksOf_eq bs hbs _ (by simp)] at hc
    rcases List.mem_cons.mp hc with h | h
    · subst h
      constructor
      · rw [List.length_take]
        exact min_le_left _ _
      · cases bs with
        | zero => omega
        | succ b => simp [List.take_cons]
    · exact mem_chunksOf bs hbs ((a :: t).drop bs) c h
termination_by l => l.length
decreasing_by simp [List.length_drop]; omega

/-- Elements of chunks are elements of the original list. -/
theorem mem_of_mem_chunksOf {α : Type} (bs : Nat) (hbs : 0 < bs) {l c : List α} {e : α}
    (hc : c ∈ chunksOf bs l) (he : e ∈ c) : e ∈ l := by
  have : e ∈ (chunksOf bs l).flatten := List.mem_flatten.mpr ⟨c, hc, he⟩
  rwa [chunksOf_flatten bs hbs l] at this

/-! Helper lemmas about batch normalisation. -/

/-- Every pair in a valid batch has exactly two elements. -/
theorem validBatch_pairs (b : List VocabIds) (p : VocabIds) (hp : p ∈ validBatch b) :
    p.length = 2 := by
  rcases List.mem_filterMap.mp hp with ⟨e, _, hn⟩
  match e with
  | [] => simp [normalizeEntry] at hn
  | [v] =>
    simp [normalizeEntry] at hn
    simp [← hn]
  | v :: s :: t =>
    simp [normalizeEntry] at hn
    simp [← hn]

/-- A chunk whose entries are all nonempty normalises to a nonempty batch. -/
theorem validBatch_ne_nil (b : List VocabIds) (hb : b ≠ [])
    (hents : ∀ e ∈ b, e ≠ []) : validBatch b ≠ [] := by
  match b with
  | [] => exact absurd rfl hb
  | e :: rest =>
    have he : e ≠ [] := hents e (by simp)
    match e with
    | [] => exact absurd rfl he
    | [v] => simp [validBatch, List.filterMap_cons, normalizeEntry]
    | v :: s :: t => simp [validBatch, List.filterMap_cons, normalizeEntry]

/-! Helper lemmas about the batching loop. -/

/-- If the remote answers a call successfully with at most one record per
requested pair, the returned `vocabulary_info` array of `lookup_vocabulary`
is no longer than the request. -/
theorem lookup_vocabulary_length (remote : RemoteOracle)
    (hlen : ∀ k r v, remote k r = Except.ok (some v) → v.length ≤ r.length)
    (k : Nat) (r : List VocabIds) (infos : List VocabInfo)
    (h : lookup_vocabulary remote k r = Except.ok infos) : infos.length ≤ r.length := by
  unfold lookup_vocabulary at h
  cases hr : remote k r with
  | error e => rw [hr] at h; exact absurd h (by simp)
  | ok v =>
    rw [hr] at h
    cases v with
    | none =>
      simp at h
      subst h
      simp
    | some info =>
      simp at h
      subst h
      exact hlen k r _ hr

/-- When every lookup call succeeds, the batching loop issues exactly one
call per chunk with a nonempty valid batch, in chunk order. -/
theorem runChunks_trace_allOk (remote : RemoteOracle)
    (hok : ∀ k r, ∃ v, remote k r = Except.ok v) :
    ∀ (cs : List (List VocabIds)) (k : Nat),
      (∀ c ∈ cs, (validBatch c).isEmpty = false) →
      (runChunks remote k cs).2 = cs.map validBatch := by
  intro cs
  induction cs with
  | nil => intro k _; rfl
  | cons c rest ih =>
    intro k h
    have hc := h c (by simp)
    simp only [runChunks, hc, Bool.false_eq_true, if_false]
    obtain ⟨v, hv⟩ := hok k (validBatch c)
    have hl : ∃ infos, lookup_vocabulary remote k (validBatch c) = Except.ok infos := by
      cases v with
      | none => exact ⟨[], by simp [lookup_vocabulary, hv]⟩
      | some info => exact ⟨info, by simp [lookup_vocabulary, hv]⟩
    obtain ⟨infos, hinf⟩ := hl
    rw [hinf]
    have htail := ih (k + 1) (fun d hd => h d (by simp [hd]))
    rcases hrr : runChunks remote (k + 1) rest with ⟨r', tr'⟩
    rw [hrr] at htail
    cases r' <;> simp_all

/-- When the batching loop returns successfully, the accumulated record list
is no longer than the total length of the chunks, assuming the remote
returns at most one record per requested pair. -/
theorem runChunks_ok_length (remote : RemoteOracle)
    (hlen : ∀ k r v, remote k r = Except.ok (some v) → v.length ≤ r.length) :
    ∀ (cs : List (List VocabIds)) (k : Nat) (out : List VocabInfo)
      (tr : List (List VocabIds)),
      runChunks remote k cs = (Except.ok out, tr) →
      out.length ≤ (cs.map List.length).sum := by
  intro cs
  induction cs with
  | nil =>
    intro k out tr h
    simp only [runChunks, Prod.mk.injEq] at h
    obtain ⟨h1, _⟩ := h
    simp [← Except.ok.inj h1]
  | cons c rest ih =>
    intro k out tr h
    simp only [runChunks] at h
    by_cases hvb : (validBatch c).isEmpty
    · rw [if_pos hvb] at h
      calc out.length ≤ (rest.map List.length).sum := ih k out tr h
        _ ≤ ((c :: rest).map List.length).sum := by simp
    · rw [if_neg hvb] at h
      cases hl : lookup_vocabulary remote k (validBatch c) with
      | error e => rw [hl] at h; exact absurd h (by simp)
      | ok infos =>
        rw [hl] at h
        rcases hrr : runChunks remote (k + 1) rest with ⟨r', tr'⟩
        rw [hrr] at h
        cases r' with
        | error e => exact absurd h (by simp)
        | ok more =>
          simp only [Prod.mk.injEq] at h
          obtain ⟨h1, _⟩ := h
          have hout : out = infos ++ more := (Except.ok.inj h1).symm
          have hinfos : infos.length ≤ c.length :=
            le_trans (lookup_vocabulary_length remote hlen k (validBatch c) infos hl)
              (List.length_filterMap_le _ _)
          have hmore : more.length ≤ (rest.map List.length).sum := ih (k + 1) more tr' hrr
          simp only [hout, List.length_append, List.map_cons, List.sum_cons]
          omega

/-- Every request the batching loop issues is a nonempty list of
two-element pairs, regardless of the oracle and the input chunks. -/
theorem runChunks_calls (remote : RemoteOracle) :
    ∀ (cs : List (List VocabIds)) (k : Nat) (req : List VocabIds),
      req ∈ (runChunks remote k cs).2 →
      req ≠ [] ∧ ∀ p ∈ req, p.length = 2 := by
  intro cs
  induction cs with
  | nil => intro k req h; simp [runChunks] at h
  | cons c rest ih =>
    intro k req h
    simp only [runChunks] at h
    by_cases hvb : (validBatch c).isEmpty
    · rw [if_pos hvb] at h
      exact ih k req h
    · rw [if_neg hvb] at h
      cases hl : lookup_vocabulary remote k (validBatch c) with
      | error e =>
        rw [hl] at h
        simp at h
        subst h
        refine ⟨fun hnil => hvb (by simp [hnil]), fun p hp => validBatch_pairs c p hp⟩
      | ok infos =>
        rw [hl] at h
        rcases hrr : runChunks remote (k + 1) rest with ⟨r', tr'⟩
        rw [hrr] at h
        have hmem : req = validBatch c ∨ req ∈ tr' := by
          cases r' <;> simpa using h
        rcases hmem with he | he
        · subst he
          exact ⟨fun hnil => hvb (by simp [hnil]), fun p hp => validBatch_pairs _ p hp⟩
        · exact ih (k + 1) req (by rw [hrr]; exact he)

/-- Once a lookup call raises, appending further chunks to the batching loop
changes nothing: no later chunk is ever requested and the error with the
trace so far is final. -/
theorem runChunks_error_stable (remote : RemoteOracle) :
    ∀ (cs extra : List (List VocabIds)) (k : Nat) (e : String)
      (calls : List (List VocabIds)),
      runChunks remote k cs = (Except.error e, calls) →
      runChunks remote k (cs ++ extra) = (Except.error e, calls) := by
  intro cs
  induction cs with
  | nil =>
    intro extra k e calls h
    simp only [runChunks, Prod.mk.injEq] at h
    exact absurd h.1 (by simp)
  | cons c rest ih =>
    intro extra k e calls h
    simp only [runChunks, List.cons_append] at h ⊢
    by_cases hvb : (validBatch c).isEmpty
    · rw [if_pos hvb] at h ⊢
      exact ih extra k e calls h
    · rw [if_neg hvb] at h ⊢
      cases hl : lookup_vocabulary remote k (validBatch c) with
      | error e' =>
        simp only [hl] at h ⊢
        exact h
      | ok infos =>
        simp only [hl] at h ⊢
        rcases hrr : runChunks remote (k + 1) rest with ⟨r', tr'⟩
        cases r' with
        | error e2 =>
          simp only [hrr, Prod.mk.injEq] at h
          obtain ⟨h1, h2⟩ := h
          simp only [List.append_eq, ih extra (k + 1) e2 tr' hrr]
          rw [h1, h2]
        | ok more =>
          simp only [hrr, Prod.mk.injEq] at h
          exact absurd h.1 (by simp)

/-! Helper lemmas about the note-writing loop. -/

/-- Counter bookkeeping of the note-writing loop: both counters grow, each
note written accounts for one `imported` increment, and the records fully
processed (one counter tick each) never exceed the input, with equality on a
clean pass. -/
theorem import_loop_invariant (field_count : Nat) (write : WriteOracle) :
    ∀ (cards : List VocabInfo) (i s : Nat) (ns : List (List String))
      (res : Except String Unit) (i' s' : Nat) (ns' : List (List String)),
      import_loop field_count write cards i s ns = (res, i', s', ns') →
      i ≤ i' ∧ s ≤ s' ∧ ns'.length = ns.length + (i' - i) ∧
        (i' - i) + (s' - s) ≤ cards.length ∧
        (res = Except.ok () → (i' - i) + (s' - s) = cards.length) := by
  intro cards
  induction cards with
  | nil =>
    intro i s ns res i' s' ns' h
    simp only [import_loop, Prod.mk.injEq] at h
    obtain ⟨h1, h2, h3, h4⟩ := h
    subst h2; subst h3; subst h4
    simp [← h1]
  | cons card rest ih =>
    intro i s ns res i' s' ns' h
    simp only [import_loop] at h
    cases hm : mapFields card field_count with
    | skip =>
      rw [hm] at h
      obtain ⟨h1, h2, h3, h4, h5⟩ := ih i (s + 1) ns res i' s' ns' h
      refine ⟨by omega, by omega, by omega, by simp only [List.length_cons]; omega,
        fun hok => ?_⟩
      have := h5 hok
      simp only [List.length_cons]
      omega
    | err e =>
      rw [hm] at h
      simp only [Prod.mk.injEq] at h
      obtain ⟨h1, h2, h3, h4⟩ := h
      subst h2; subst h3; subst h4
      refine ⟨le_refl _, le_refl _, by omega, by omega, fun hok => ?_⟩
      rw [← h1] at hok
      exact absurd hok (by simp)
    | fields fs =>
      rw [hm] at h
      cases hw : write ns.length with
      | error e =>
        rw [hw] at h
        simp only [Prod.mk.injEq] at h
        obtain ⟨h1, h2, h3, h4⟩ := h
        subst h2; subst h3; subst h4
        refine ⟨le_refl _, le_refl _, by omega, by omega, fun hok => ?_⟩
        rw [← h1] at hok
        exact absurd hok (by simp)
      | ok _ =>
        rw [hw] at h
        obtain ⟨h1, h2, h3, h4, h5⟩ := ih (i + 1) s (ns ++ [fs]) res i' s' ns' h
        simp only [List.length_append, List.length_cons, List.length_nil] at h3
        refine ⟨by omega, by omega, by omega, by simp only [List.length_cons]; omega,
          fun hok => ?_⟩
        have := h5 hok
        simp only [List.length_cons]
        omega

/-- Once the loop raises, appending further records to the input changes
nothing: the remaining records are never processed. -/
theorem import_loop_error_stable (field_count : Nat) (write : WriteOracle) :
    ∀ (cards extra : List VocabInfo) (i s : Nat) (ns : List (List String))
      (e : String) (i' s' : Nat) (ns' : List (List String)),
      import_loop field_count write cards i s ns = (Except.error e, i', s', ns') →
      import_loop field_count write (cards ++ extra) i s ns =
        (Except.error e, i', s', ns') := by
  intro cards
  induction cards with
  | nil =>
    intro extra i s ns e i' s' ns' h
    simp only [import_loop, Prod.mk.injEq] at h
    exact absurd h.1 (by simp)
  | cons card rest ih =>
    intro extra i s ns e i' s' ns' h
    simp only [import_loop, List.cons_append] at h ⊢
    cases hm : mapFields card field_count with
    | skip =>
      rw [hm] at h
      exact ih extra i (s + 1) ns e i' s' ns' h
    | err e' =>
      rw [hm] at h
      exact h
    | fields fs =>
      rw [hm] at h
      cases hw : write ns.length with
      | error e' =>
        rw [hw] at h
        exact h
      | ok _ =>
        rw [hw] at h
        exact ih extra (i + 1) s (ns ++ [fs]) e i' s' ns' h

/-- One step of the loop on a skipped record: only `skipped` advances,
no note is written. -/
theorem import_loop_skip_step (field_count : Nat) (write : WriteOracle)
    (card : VocabInfo) (rest : List VocabInfo) (i s : Nat) (ns : List (List String))
    (hm : mapFields card field_count = MapResult.skip) :
    import_loop field_count write (card :: rest) i s ns =
      import_loop field_count write rest i (s + 1) ns := by
  simp only [import_loop, hm]

/-- One step of the loop on a mapped record whose write succeeds: only
`imported` advances, and exactly the mapped fields are appended to the
committed notes. -/
theorem import_loop_write_step (field_count : Nat) (write : WriteOracle)
    (card : VocabInfo) (rest : List VocabInfo) (i s : Nat) (ns : List (List String))
    (fs : List String) (hm : mapFields card field_count = MapResult.fields fs)
    (hw : write ns.length = Except.ok ()) :
    import_loop field_count write (card :: rest) i s ns =
      import_loop field_count write rest (i + 1) s (ns ++ [fs]) := by
  simp only [import_loop, hm, hw]

/-! Claim theorems. -/

/-- C5: id-pair normalization in the batching loop of `get_deck_cards` maps an
empty entry to a dropped entry (it is removed from the batch before any later
stage, so it contributes to neither counter), a one-element entry `[x]` to the
duplicated pair `[x, x]`, and an entry with two or more elements to its first
two elements with the tail silently discarded. -/
theorem C5_normalization :
    (normalizeEntry [] = none) ∧
    (∀ x : Int, normalizeEntry [x] = some [x, x]) ∧
    (∀ (x y : Int) (rest : List Int), normalizeEntry (x :: y :: rest) = some [x, y]) ∧
    (∀ rest : List VocabIds, validBatch ([] :: rest) = validBatch rest) ∧
    (normalizeEntry [5] = some [5, 5] ∧ normalizeEntry [5, 9] = some [5, 9] ∧
      normalizeEntry [5, 9, 99] = some [5, 9]) := by
  refine ⟨rfl, fun x => rfl, fun x y rest => rfl, fun rest => ?_, rfl, rfl, rfl⟩
  simp [validBatch, List.filterMap_cons, normalizeEntry]

/-- C2 as stated is false on the code: a present record whose triple has only
one sub-array (fewer than the required three) is not skipped; the mapping
stage raises the Python `IndexError`, which aborts the whole run. -/
theorem C2_counterexample :
    mapFields (some [["x"]]) 2 = MapResult.err "list index out of range" ∧
    mapFields (some [["x"]]) 2 ≠ MapResult.skip := by
  exact ⟨rfl, by decide⟩

/-- C2 amended: an absent (`None` or empty) record, or a record whose spelling
sequence is empty, yields SKIP (the skipped counter is incremented and no note
is written, without raising); but a present record whose triple has fewer than
three sub-arrays raises an `IndexError` that aborts the run instead of being
skipped. -/
theorem C2_skip_behaviour :
    (∀ n : Nat, mapFields none n = MapResult.skip) ∧
    (∀ n : Nat, mapFields (some []) n = MapResult.skip) ∧
    (∀ (ra ma : List String) (rest : List (List String)) (n : Nat),
      mapFields (some ([] :: ra :: ma :: rest)) n = MapResult.skip) ∧
    (∀ (a : List String) (n : Nat),
      mapFields (some [a]) n = MapResult.err "list index out of range") ∧
    (∀ (a b : List String) (n : Nat),
      mapFields (some [a, b]) n = MapResult.err "list index out of range") ∧
    (∀ (fc : Nat) (w : WriteOracle) (card : VocabInfo) (rest : List VocabInfo)
        (i s : Nat) (ns : List (List String)),
      mapFields card fc = MapResult.skip →
      import_loop fc w (card :: rest) i s ns = import_loop fc w rest i (s + 1) ns) := by
  refine ⟨fun n => rfl, fun n => rfl, fun ra ma rest n => rfl, fun a n => rfl,
    fun a b n => rfl, fun fc w card rest i s ns hm => ?_⟩
  exact import_loop_skip_step fc w card rest i s ns hm

/-- Witness for C2: a `None` record is skipped by the loop, with only the
skipped counter advanced. -/
theorem C2_witness :
    import_loop 2 writeOK [none] 0 0 [] = import_loop 2 writeOK [] 0 1 [] :=
  C2_skip_behaviour.2.2.2.2.2 2 writeOK none [] 0 0 [] rfl

/-- C7: for a mapped record written with at least two fields, the front is the
first spelling with the first reading appended in parentheses exactly when the
reading is nonempty and differs from the spelling; on `食べる`/`たべる` this
gives `食べる (たべる)`, and on equal spelling and reading the bare spelling. -/
theorem C7_front_composition :
    (∀ (sa ra ma : List String) (rest : List (List String)) (n : Nat),
      2 ≤ n → sa ≠ [] →
      ((ra.headD "" ≠ "" ∧ ra.headD "" ≠ sa.headD "") →
        ∃ tail, mapFields (some (sa :: ra :: ma :: rest)) n =
          MapResult.fields ((sa.headD "" ++ " (" ++ ra.headD "" ++ ")") :: tail)) ∧
      (¬(ra.headD "" ≠ "" ∧ ra.headD "" ≠ sa.headD "") →
        ∃ tail, mapFields (some (sa :: ra :: ma :: rest)) n =
          MapResult.fields (sa.headD "" :: tail))) ∧
    mapFields (some [["食べる"], ["たべる"], []]) 2 =
      MapResult.fields ["食べる (たべる)", ""] ∧
    mapFields (some [["食べる"], ["食べる"], []]) 2 =
      MapResult.fields ["食べる", ""] := by
  refine ⟨fun sa ra ma rest n h2 hsa => ?_, rfl, rfl⟩
  have hne : ¬ sa.isEmpty = true := by simp [List.isEmpty_eq_false.mpr hsa]
  constructor
  · intro hcond
    refine ⟨String.intercalate ", " ma :: List.replicate (n - 2) "", ?_⟩
    simp only [mapFields]
    rw [if_neg hne, if_pos h2, if_pos hcond]
  · intro hcond
    refine ⟨String.intercalate ", " ma :: List.replicate (n - 2) "", ?_⟩
    simp only [mapFields]
    rw [if_neg hne, if_pos h2, if_neg hcond]

/-- Witness for C7: on spelling `x` with differing nonempty reading `y` and
two target fields, the front is `x (y)`. -/
theorem C7_witness :
    ∃ tail, mapFields (some [["x"], ["y"], ["m"]]) 2 =
      MapResult.fields (((["x"] : List String).headD "" ++ " (" ++
        (["y"] : List String).headD "" ++ ")") :: tail) :=
  (C7_front_composition.1 ["x"] ["y"] ["m"] [] 2 (by decide) (by decide)).1 (by decide)

/-- C8: the meanings text is the `", "`-join of the meaning strings (empty
for an empty meanings sequence); with at least two target fields, field 0 is
the composed front and field 1 the meanings text, every remaining field left
at its fresh-note default `""`; with exactly one target field, the note
receives only the bare spelling and no field receives meaning text.  (Anki
note types always have at least one field, so the one-field case is the whole
`len(fields) < 2` branch.) -/
theorem C8_meanings_and_fields :
    (∀ (sa ra ma : List String) (rest : List (List String)) (n : Nat),
      2 ≤ n → sa ≠ [] →
      ∃ front, mapFields (some (sa :: ra :: ma :: rest)) n =
        MapResult.fields (front :: String.intercalate ", " ma ::
          List.replicate (n - 2) "")) ∧
    (∀ (sa ra ma : List String) (rest : List (List String)),
      sa ≠ [] →
      mapFields (some (sa :: ra :: ma :: rest)) 1 = MapResult.fields [sa.headD ""]) ∧
    mapFields (some [["x"], [], ["to eat", "to dine"]]) 2 =
      MapResult.fields ["x", "to eat, to dine"] ∧
    mapFields (some [["x"], [], []]) 2 = MapResult.fields ["x", ""] := by
  refine ⟨fun sa ra ma rest n h2 hsa => ?_, fun sa ra ma rest hsa => ?_, rfl, rfl⟩
  · have hne : ¬ sa.isEmpty = true := by simp [List.isEmpty_eq_false.mpr hsa]
    refine ⟨if ra.headD "" ≠ "" ∧ ra.headD "" ≠ sa.headD "" then
        sa.headD "" ++ " (" ++ ra.headD "" ++ ")" else sa.headD "", ?_⟩
    simp only [mapFields]
    rw [if_neg hne, if_pos h2]
  · have hne : sa.isEmpty = false := List.isEmpty_eq_false.mpr hsa
    simp [mapFields, hne]

/-- Witness for C8: meanings join with two target fields, and the bare
spelling with one target field. -/
theorem C8_witness :
    (∃ front, mapFields (some [["x"], ["y"], ["to eat", "to dine"]]) 2 =
      MapResult.fields (front :: String.intercalate ", " ["to eat", "to dine"] ::
        List.replicate (2 - 2) "")) ∧
    mapFields (some [["x"], ["y"], ["m"]]) 1 =
      MapResult.fields [(["x"] : List String).headD ""] :=
  ⟨C8_meanings_and_fields.1 ["x"] ["y"] ["to eat", "to dine"] [] 2 (by decide) (by decide),
    C8_meanings_and_fields.2.1 ["x"] ["y"] ["m"] [] (by decide)⟩

set_option maxRecDepth 10000 in
/-- C3: over the retained (post-truncation) id list, `get_deck_cards` issues
exactly one lookup call per chunk, strictly sequentially in chunk order (when
every call succeeds and every entry is well formed); with 250 well-formed ids,
batch size 100 and limit 1000 it issues exactly 3 calls of sizes 100, 100,
50, and when the second call fails no call for the third chunk is issued. -/
theorem C3_one_call_per_chunk :
    (∀ remote : RemoteOracle, (∀ k r, ∃ v, remote k r = Except.ok v) →
      ∀ (bs limit : Nat) (l : List VocabIds), 0 < bs → (∀ e ∈ l, e ≠ []) →
      (get_deck_cards (Except.ok l) remote limit bs).2 =
        (chunksOf bs (l.take limit)).map validBatch) ∧
    (get_deck_cards (Except.ok l250) remoteOK 1000 100).2.map List.length =
      [100, 100, 50] ∧
    (get_deck_cards (Except.ok l250) remoteFail2 1000 100).1 =
      Except.error "HTTP 500: boom" ∧
    (get_deck_cards (Except.ok l250) remoteFail2 1000 100).2.map List.length =
      [100, 100] := by
  refine ⟨fun remote hok bs limit l hbs hents => ?_, by decide, rfl, by decide⟩
  refine runChunks_trace_allOk remote hok _ 0 ?_
  intro c hc
  have hcne := (mem_chunksOf bs hbs _ c hc).2
  have hents' : ∀ e ∈ c, e ≠ [] := fun e he =>
    hents e (List.mem_of_mem_take (mem_of_mem_chunksOf bs hbs hc he))
  exact List.isEmpty_eq_false.mpr (validBatch_ne_nil c hcne hents')

set_option maxRecDepth 10000 in
/-- Witness for C3: the three requests issued on the 250-id deck are exactly
the normalised chunks, in order. -/
theorem C3_witness :
    (get_deck_cards (Except.ok l250) remoteOK 1000 100).2 =
      (chunksOf 100 (l250.take 1000)).map validBatch :=
  C3_one_call_per_chunk.1 remoteOK (fun _ _ => ⟨some [], rfl⟩) 100 1000 l250
    (by decide) (by decide)

/-- C4: `get_deck_cards` truncates the deck list to its first `limit` entries
and partitions the retained entries into consecutive chunks of size at most
`batch_size` that cover every retained entry exactly once; assuming the remote
returns at most one record per requested pair, the accumulated output is no
longer than `min` of the list length and the limit. -/
theorem C4_truncate_and_bound (remote : RemoteOracle) (bs limit : Nat)
    (l : List VocabIds) (hbs : 0 < bs)
    (hresp : ∀ k r v, remote k r = Except.ok (some v) → v.length ≤ r.length) :
    (chunksOf bs (l.take limit)).flatten = l.take limit ∧
    (∀ c ∈ chunksOf bs (l.take limit), c.length ≤ bs) ∧
    (∀ out calls,
      get_deck_cards (Except.ok l) remote limit bs = (Except.ok out, calls) →
      out.length ≤ min l.length limit) := by
  refine ⟨chunksOf_flatten bs hbs _, fun c hc => (mem_chunksOf bs hbs _ c hc).1,
    fun out calls h => ?_⟩
  have h' : runChunks remote 0 (chunksOf bs (l.take limit)) = (Except.ok out, calls) := h
  have hb := runChunks_ok_length remote hresp _ 0 out calls h'
  have hsum : ((chunksOf bs (l.take limit)).map List.length).sum =
      (l.take limit).length := by
    rw [← List.length_flatten, chunksOf_flatten bs hbs]
  rw [hsum, List.length_take] at hb
  omega

set_option maxRecDepth 10000 in
/-- Witness for C4 on the 250-id deck with an always-succeeding remote. -/
theorem C4_witness :
    (chunksOf 100 (l250.take 1000)).flatten = l250.take 1000 ∧
    (∀ c ∈ chunksOf 100 (l250.take 1000), c.length ≤ 100) ∧
    (∀ out calls,
      get_deck_cards (Except.ok l250) remoteOK 1000 100 = (Except.ok out, calls) →
      out.length ≤ min l250.length 1000) :=
  C4_truncate_and_bound remoteOK 100 1000 l250 (by decide)
    (fun k r v h => by
      have hv : v = [] := by simpa [remoteOK] using h.symm
      simp [hv])

/-- C9: every `lookup-vocabulary` request issued by `get_deck_cards` is a
nonempty list whose elements are all two-element pairs, for any oracle
behaviour and any deck listing. -/
theorem C9_request_invariant (vocab : Except String (List VocabIds))
    (remote : RemoteOracle) (limit bs : Nat) (req : List VocabIds)
    (hreq : req ∈ (get_deck_cards vocab remote limit bs).2) :
    req ≠ [] ∧ ∀ p ∈ req, p.length = 2 := by
  cases vocab with
  | error e => simp [get_deck_cards] at hreq
  | ok l => exact runChunks_calls remote _ 0 req hreq

/-- Witness for C9: the single request issued for the deck listing
`[[1, 2], [3]]` is nonempty and consists of two-element pairs. -/
theorem C9_witness :
    ([[1, 2], [3, 3]] : List VocabIds) ≠ [] ∧
    ∀ p ∈ ([[1, 2], [3, 3]] : List VocabIds), p.length = 2 :=
  C9_request_invariant (Except.ok [[1, 2], [3]]) remoteOK 1000 100 [[1, 2], [3, 3]]
    (by decide)

/-- C1 as stated is false on the code: when the note type is unknown the run
does abort with the local validation warning, but only after the
`deck/list-vocabulary` and `lookup-vocabulary` network calls were issued and
after the target Anki deck was created by `mw.col.decks.id`. -/
theorem C1_counterexample :
    (import_cards 1 "Deck" "Nope" none (Except.ok [[1, 2]]) remoteOK writeOK).warnings =
      ["Note type \x27Nope\x27 not found."] ∧
    (import_cards 1 "Deck" "Nope" none (Except.ok [[1, 2]]) remoteOK writeOK).listCalled =
      true ∧
    (import_cards 1 "Deck" "Nope" none (Except.ok [[1, 2]]) remoteOK writeOK).lookupCalls ≠
      [] ∧
    (import_cards 1 "Deck" "Nope" none (Except.ok [[1, 2]]) remoteOK writeOK).deckCreated =
      true := by
  exact ⟨rfl, rfl, by decide, rfl⟩

/-- C1 amended: an empty target deck name aborts with a local validation
warning before any network call and before any store change; an unknown note
type also aborts with a local warning and writes no note, but only after the
deck fetch network calls were issued and after the target deck was
created. -/
theorem C1_validation (combo_count : Nat) (dn ntn : String) (nt : Option Nat)
    (vocab : Except String (List VocabIds)) (remote : RemoteOracle)
    (write : WriteOracle) :
    (combo_count ≠ 0 → pyStrip dn = "" →
      import_cards combo_count dn ntn nt vocab remote write =
        ⟨[], ["Please enter an Anki deck name."], [], false, [], false, []⟩) ∧
    (∀ cards calls, combo_count ≠ 0 → pyStrip dn ≠ "" →
      get_deck_cards vocab remote 1000 100 = (Except.ok cards, calls) →
      import_cards combo_count dn ntn none vocab remote write =
        ⟨["\nStarting import...", "Fetching cards from JPDB...",
            "Retrieved " ++ toString cards.length ++ " cards."],
          ["Note type \x27" ++ ntn ++ "\x27 not found."], [], true, calls, true, []⟩) := by
  constructor
  · intro h1 h2
    simp only [import_cards, if_neg h1, if_pos h2]
  · intro cards calls h1 h2 hfetch
    simp only [import_cards, if_neg h1, if_neg h2, hfetch]

/-- Witness for the amended C1: a blank deck name aborts cold; an unknown
note type aborts after one issued lookup call with the deck created. -/
theorem C1_witness :
    import_cards 1 " " "Basic" (some 2) (Except.ok [[1, 2]]) remoteOK writeOK =
      ⟨[], ["Please enter an Anki deck name."], [], false, [], false, []⟩ ∧
    import_cards 1 "Deck2" "Missing" none (Except.ok [[1, 2]]) remoteOK writeOK =
      ⟨["\nStarting import...", "Fetching cards from JPDB...", "Retrieved 0 cards."],
        ["Note type \x27Missing\x27 not found."], [], true, [[[1, 2]]], true, []⟩ :=
  ⟨(C1_validation 1 " " "Basic" (some 2) (Except.ok [[1, 2]]) remoteOK writeOK).1
      (by decide) (by decide),
    (C1_validation 1 "Deck2" "Missing" none (Except.ok [[1, 2]]) remoteOK writeOK).2
      [] [[[1, 2]]] (by decide) (by decide) rfl⟩

/-- C6 as stated is false on the code: on an unhandled error during Writing
the run does stop at once and keeps the committed writes, but the surfaced
outcome carries only the error; the `imported`/`skipped` counters accumulated
before the failure (here 1 and 1) appear nowhere in the status log, warnings
or dialogs. -/
theorem C6_counterexample :
    import_loop 2 writeOK cexCards 0 0 [] =
      (Except.error "list index out of range", 1, 1, [["あ", ""]]) ∧
    (import_cards 1 "Target" "Basic" (some 2) (Except.ok [[1, 2], [3, 4], [5, 6]])
        remoteCex writeOK).notes = [["あ", ""]] ∧
    (import_cards 1 "Target" "Basic" (some 2) (Except.ok [[1, 2], [3, 4], [5, 6]])
        remoteCex writeOK).log =
      ["\nStarting import...", "Fetching cards from JPDB...", "Retrieved 3 cards.",
        "\nError during import: list index out of range"] ∧
    (import_cards 1 "Target" "Basic" (some 2) (Except.ok [[1, 2], [3, 4], [5, 6]])
        remoteCex writeOK).warnings = ["Import failed: list index out of range"] ∧
    (import_cards 1 "Target" "Basic" (some 2) (Except.ok [[1, 2], [3, 4], [5, 6]])
        remoteCex writeOK).infos = [] ∧
    "Imported: 1 cards" ∉ (import_cards 1 "Target" "Basic" (some 2)
        (Except.ok [[1, 2], [3, 4], [5, 6]]) remoteCex writeOK).log ∧
    "Skipped: 1 cards" ∉ (import_cards 1 "Target" "Basic" (some 2)
        (Except.ok [[1, 2], [3, 4], [5, 6]]) remoteCex writeOK).log := by
  exact ⟨rfl, rfl, rfl, rfl, rfl, by decide, by decide⟩

/-- C6 amended: an unhandled error during Resolving or Writing stops the run
at once (in Writing, records after the failing one are never processed; in
Resolving, no chunk after the failing call is ever requested), keeps the
notes already committed (no rollback), and surfaces the error as a status
line plus a warning; the counters accumulated so far are discarded rather
than surfaced. -/
theorem C6_abort_behaviour (field_count : Nat) (write : WriteOracle) :
    (∀ (cards extra : List VocabInfo) (e : String) (i s : Nat)
        (ns : List (List String)),
      import_loop field_count write cards 0 0 [] = (Except.error e, i, s, ns) →
      import_loop field_count write (cards ++ extra) 0 0 [] =
        (Except.error e, i, s, ns)) ∧
    (∀ (cc : Nat) (dn ntn : String) (vocab : Except String (List VocabIds))
        (remote : RemoteOracle) (cards : List VocabInfo)
        (calls : List (List VocabIds)) (e : String) (i s : Nat)
        (ns : List (List String)),
      cc ≠ 0 → pyStrip dn ≠ "" →
      get_deck_cards vocab remote 1000 100 = (Except.ok cards, calls) →
      import_loop field_count write cards 0 0 [] = (Except.error e, i, s, ns) →
      import_cards cc dn ntn (some field_count) vocab remote write =
        ⟨["\nStarting import...", "Fetching cards from JPDB...",
            "Retrieved " ++ toString cards.length ++ " cards.",
            "\nError during import: " ++ e],
          ["Import failed: " ++ e], [], true, calls, true, ns⟩) ∧
    (∀ (remote : RemoteOracle) (cs extra : List (List VocabIds)) (k : Nat)
        (e : String) (calls : List (List VocabIds)),
      runChunks remote k cs = (Except.error e, calls) →
      runChunks remote k (cs ++ extra) = (Except.error e, calls)) ∧
    (∀ (cc : Nat) (dn ntn : String) (nt : Option Nat)
        (vocab : Except String (List VocabIds)) (remote : RemoteOracle)
        (e : String) (calls : List (List VocabIds)),
      cc ≠ 0 → pyStrip dn ≠ "" →
      get_deck_cards vocab remote 1000 100 = (Except.error e, calls) →
      import_cards cc dn ntn nt vocab remote write =
        ⟨["\nStarting import...", "Fetching cards from JPDB...",
            "\nError during import: " ++ e],
          ["Import failed: " ++ e], [], true, calls, false, []⟩) := by
  refine ⟨fun cards extra e i s ns h =>
      import_loop_error_stable field_count write cards extra 0 0 [] e i s ns h,
    ?_, fun remote cs extra k e calls h =>
      runChunks_error_stable remote cs extra k e calls h, ?_⟩
  · intro cc dn ntn vocab remote cards calls e i s ns h1 h2 hfetch hloop
    simp only [import_cards, if_neg h1, if_neg h2, hfetch, hloop]
  · intro cc dn ntn nt vocab remote e calls h1 h2 hfetch
    simp only [import_cards, if_neg h1, if_neg h2, hfetch]

/-- Witness for the amended C6: the failing three-record run stops at the bad
record, keeps the one committed note, and surfaces only the error; a failing
lookup call during Resolving likewise stops the run (no further chunk is
requested) and surfaces only the error, with no note written and no deck
created. -/
theorem C6_witness :
    import_loop 2 writeOK (cexCards ++ [some [["b"], [], []]]) 0 0 [] =
      (Except.error "list index out of range", 1, 1, [["あ", ""]]) ∧
    import_cards 1 "Target" "Basic" (some 2) (Except.ok [[1, 2], [3, 4], [5, 6]])
        remoteCex writeOK =
      ⟨["\nStarting import...", "Fetching cards from JPDB...", "Retrieved 3 cards.",
          "\nError during import: list index out of range"],
        ["Import failed: list index out of range"], [],
        true, [[[1, 2], [3, 4], [5, 6]]], true, [["あ", ""]]⟩ ∧
    runChunks remoteErr 0 ([[[1, 2]]] ++ [[[3, 4]]]) =
      (Except.error "HTTP 500: boom", [[[1, 2]]]) ∧
    import_cards 1 "Target" "Basic" (some 2) (Except.ok [[1, 2]]) remoteErr writeOK =
      ⟨["\nStarting import...", "Fetching cards from JPDB...",
          "\nError during import: HTTP 500: boom"],
        ["Import failed: HTTP 500: boom"], [], true, [[[1, 2]]], false, []⟩ :=
  ⟨(C6_abort_behaviour 2 writeOK).1 cexCards [some [["b"], [], []]]
      "list index out of range" 1 1 [["あ", ""]] rfl,
    (C6_abort_behaviour 2 writeOK).2.1 1 "Target" "Basic"
      (Except.ok [[1, 2], [3, 4], [5, 6]]) remoteCex cexCards
      [[[1, 2], [3, 4], [5, 6]]] "list index out of range" 1 1 [["あ", ""]]
      (by decide) (by decide) rfl rfl,
    (C6_abort_behaviour 2 writeOK).2.2.1 remoteErr [[[1, 2]]] [[[3, 4]]] 0
      "HTTP 500: boom" [[[1, 2]]] rfl,
    (C6_abort_behaviour 2 writeOK).2.2.2 1 "Target" "Basic" (some 2)
      (Except.ok [[1, 2]]) remoteErr "HTTP 500: boom" [[[1, 2]]]
      (by decide) (by decide) rfl⟩

/-- C10: the counters of the writing loop start at 0 (as `import_cards`
invokes it), each fully processed record advances exactly one of the two
counters by exactly one (a skip advances `skipped`; a successful write
advances `imported` and commits exactly one note), and `imported + skipped`
equals the number of records fully processed so far, reaching the input
length exactly on a clean pass. -/
theorem C10_counters (field_count : Nat) (write : WriteOracle) :
    (∀ (cards : List VocabInfo) (res : Except String Unit) (i s : Nat)
        (ns : List (List String)),
      import_loop field_count write cards 0 0 [] = (res, i, s, ns) →
      i = ns.length ∧ i + s ≤ cards.length ∧
        (res = Except.ok () → i + s = cards.length)) ∧
    (∀ (cards : List VocabInfo) (i s : Nat) (ns : List (List String))
        (res : Except String Unit) (i' s' : Nat) (ns' : List (List String)),
      import_loop field_count write cards i s ns = (res, i', s', ns') →
      i ≤ i' ∧ s ≤ s' ∧ ns'.length = ns.length + (i' - i) ∧
        (i' - i) + (s' - s) ≤ cards.length ∧
        (res = Except.ok () → (i' - i) + (s' - s) = cards.length)) ∧
    (∀ (card : VocabInfo) (rest : List VocabInfo) (i s : Nat)
        (ns : List (List String)),
      (mapFields card field_count = MapResult.skip →
        import_loop field_count write (card :: rest) i s ns =
          import_loop field_count write rest i (s + 1) ns) ∧
      (∀ fs, mapFields card field_count = MapResult.fields fs →
        write ns.length = Except.ok () →
        import_loop field_count write (card :: rest) i s ns =
          import_loop field_count write rest (i + 1) s (ns ++ [fs]))) := by
  refine ⟨fun cards res i s ns h => ?_,
    fun cards i s ns res i' s' ns' h =>
      import_loop_invariant field_count write cards i s ns res i' s' ns' h,
    fun card rest i s ns =>
      ⟨fun hm => import_loop_skip_step field_count write card rest i s ns hm,
        fun fs hm hw =>
          import_loop_write_step field_count write card rest i s ns fs hm hw⟩⟩
  obtain ⟨h1, h2, h3, h4, h5⟩ :=
    import_loop_invariant field_count write cards 0 0 [] res i s ns h
  simp only [List.length_nil] at h3
  exact ⟨by omega, by omega, fun hok => by have := h5 hok; omega⟩

/-- Witness for C10 on the failing three-record run: one import and one skip
account for the two fully processed records, and the committed notes match
the `imported` counter. -/
theorem C10_witness :
    (1 : Nat) = [["あ", ""]].length ∧ 1 + 1 ≤ cexCards.length ∧
      (Except.error "list index out of range" = Except.ok () →
        1 + 1 = cexCards.length) :=
  (C10_counters 2 writeOK).1 cexCards (Except.error "list index out of range") 1 1
    [["あ", ""]] rfl

end JPDBImport
